import Mathlib

/-!
Shallow embedding of the BirdieBox CSV order service (src/index.js):
the `/generate-csv` endpoint (JSON records to CSV text via json2csv) and the
`/process-csv-orders` webhook (extract a CSV URL from the order note, fetch and
parse the CSV, create one child order per row, then cancel the parent order).
Outbound HTTP effects are modelled by an explicit `Upstream` oracle and a trace
of `Call`s issued by the handler.
-/

/-- JS truthiness fallback `x || d` for an optional string: both `undefined`
and the empty string are falsy. -/
def jsOrS : Option String → String → String
  | none, d => d
  | some s, d => if s = "" then d else s

/-- JS truthiness fallback `s || d` for a plain string. -/
def jsOrEmpty (s d : String) : String := if s = "" then d else s

/-- JS truthiness fallback `x || d` for an optional integer: `undefined` and `0` are falsy. -/
def jsOrZ : Option Int → Int → Int
  | none, d => d
  | some n, d => if n = 0 then d else n

/-- The ECMAScript whitespace class `\s`: tab, LF, VT, FF, CR, space, NBSP,
Ogham space, the U+2000..U+200A range, LS, PS, NNBSP, MMSP, ideographic space
and the BOM. -/
def jsWs (c : Char) : Bool :=
  let n := c.toNat
  (n == 9) || (n == 10) || (n == 11) || (n == 12) || (n == 13) || (n == 32) ||
  (n == 160) || (n == 5760) || (decide (8192 ≤ n) && decide (n ≤ 8202)) ||
  (n == 8232) || (n == 8233) || (n == 8239) || (n == 8287) || (n == 12288) || (n == 65279)

/-- The literal characters of the scheme part of the pattern. -/
def httpsLit : List Char := ['h', 't', 't', 'p', 's', ':', '/', '/']

/-- The literal characters of the suffix part of the pattern. -/
def csvLit : List Char := ['.', 'c', 's', 'v']

/-- The maximal run of non-whitespace characters right after the scheme literal. -/
def runOf (s : List Char) : List Char :=
  (s.drop 8).takeWhile (fun c => !jsWs c)

/-- Greedy split point of the non-whitespace run: the largest `k` such that at
least one character precedes position `k` and the literal suffix sits at `k`. -/
def greedyIdx (run : List Char) : Option Nat :=
  (List.range run.length).reverse.find?
    (fun k => decide (1 ≤ k) && decide ((run.drop k).take 4 = csvLit))

/-- One attempt of the JS regex engine at the start of `s` for the pattern
matched in src/index.js line 63: the scheme literal, then a greedy
nonempty run of non-whitespace characters, then the literal suffix. -/
def tryMatchAt (s : List Char) : Option (List Char) :=
  if httpsLit.isPrefixOf s then
    match greedyIdx (runOf s) with
    | some k => some (httpsLit ++ (runOf s).take (k + 4))
    | none => none
  else none

/-- Leftmost-match scan of the JS regex: try each start position from the left. -/
def findCsvUrlAux : List Char → Option (List Char)
  | [] => none
  | c :: cs =>
    match tryMatchAt (c :: cs) with
    | some m => some m
    | none => findCsvUrlAux cs

/-- `note.match(...)` from src/index.js line 63, returning the matched URL. -/
def findCsvUrl (s : String) : Option String :=
  (findCsvUrlAux s.data).map (fun l => String.mk l)

/-- A string matches the pattern of src/index.js line 63 when it is the scheme
literal, a nonempty run of non-whitespace characters and the literal suffix. -/
def matchesPat (m : List Char) : Prop :=
  ∃ mid, mid ≠ [] ∧ (∀ c ∈ mid, jsWs c = false) ∧ m = httpsLit ++ (mid ++ csvLit)

/-- A parsed CSV row: the mapping produced by csv-parser for one data line. -/
abbrev Row : Type := List (String × String)

/-- One inbound line item of the webhook order payload. -/
structure LineItem where
  variant_id : Option Int
  quantity : Option Int
deriving DecidableEq

/-- The inbound webhook payload, projected on the fields the handler reads.
A payload that is not an order at all, or `null`, projects to `none` fields. -/
structure WebhookOrder where
  id : Option Int
  name : Option String
  note : Option String
  line_items : Option (List LineItem)
deriving DecidableEq

/-- Template-literal rendering of `order.id`: `undefined` renders as the
string "undefined". -/
def idStr (o : WebhookOrder) : String :=
  match o.id with
  | some n => toString n
  | none => "undefined"

/-- `order?.name || order?.id` rendered inside a template literal. -/
def parentRef (o : WebhookOrder) : String :=
  match o.name with
  | some s => if s = "" then idStr o else s
  | none => idStr o

/-- A line item of the synthesized child order. -/
structure LineItemOut where
  variant_id : Option Int
  quantity : Int
deriving DecidableEq

/-- `order.line_items?.map((item) => ...) || []` from src/index.js. -/
def lineItemsOut (o : WebhookOrder) : List LineItemOut :=
  match o.line_items with
  | none => []
  | some items => items.map (fun it => ⟨it.variant_id, jsOrZ it.quantity 1⟩)

/-- The customer record of the synthesized child order. -/
structure Customer where
  first_name : String
  last_name : String
  email : String
deriving DecidableEq

/-- The shipping address of the synthesized child order. -/
structure ShippingAddress where
  name : String
  address1 : String
  address2 : String
  city : String
  province : String
  zip : String
  country : String
deriving DecidableEq

/-- The synthesized child order request body. -/
structure ChildOrder where
  line_items : List LineItemOut
  customer : Customer
  shipping_address : ShippingAddress
  financial_status : String
  tags : String
deriving DecidableEq

/-- `row.name || "Gift Recipient"` from src/index.js. -/
def fullNameOf (row : Row) : String :=
  jsOrS (List.lookup "name" row) "Gift Recipient"

/-- Join a list of character lists with a single separator character between
consecutive elements. -/
def joinSep (sep : Char) : List (List Char) → List Char
  | [] => []
  | [x] => x
  | x :: y :: rest => x ++ sep :: joinSep sep (y :: rest)

/-- JS `str.split(" ")`: split at every single space, keeping empty pieces.
The result is never empty. -/
def splitOnSpace : List Char → List (List Char)
  | [] => [[]]
  | c :: cs =>
    let r := splitOnSpace cs
    if c = ' ' then [] :: r else (c :: r.headD []) :: r.tail

/-- `const [firstName, ...rest] = fullName.split(" ")` from src/index.js. -/
def splitName (full : String) : String × List String :=
  match splitOnSpace full.data with
  | [] => ("", [])
  | f :: rest => (String.mk f, rest.map String.mk)

/-- The per-row child order construction of src/index.js lines 97 to 125. -/
def newOrder (o : WebhookOrder) (row : Row) : ChildOrder :=
  let full := fullNameOf row
  let fr := splitName full
  ⟨lineItemsOut o,
   ⟨fr.1, jsOrEmpty (String.intercalate " " fr.2) "Recipient",
    jsOrS (List.lookup "email" row) "placeholder@example.com"⟩,
   ⟨full, jsOrS (List.lookup "address1" row) "", jsOrS (List.lookup "address2" row) "",
    jsOrS (List.lookup "city" row) "", jsOrS (List.lookup "state" row) "",
    jsOrS (List.lookup "zip" row) "", "United States"⟩,
   "paid",
   "Created from CSV of order " ++ parentRef o⟩

/-- What `https.get(csvUrl, ...)` does: either the request fails to connect
(the request object emits an error that nobody listens for), or the callback
fires with a response carrying a status code and a body. -/
inductive HttpsEvent where
  | connectionError
  | response (status : Nat) (body : String)

/-- The environment of one webhook request: the behaviour of the CSV fetch,
of csv-parser on the fetched body, of the n-th order-creation call (error
message or created order display name) and of the cancellation call. -/
structure Upstream where
  event : HttpsEvent
  parseRows : String → Except String (List Row)
  create : Nat → Except String String
  cancel : Except String Unit

/-- One result record pushed into `results` in src/index.js. -/
inductive ResultRecord where
  | success (orderName : String) (address : Option String)
  | failure (error : String) (row : Row)
deriving DecidableEq

/-- An outbound call issued by the handler. -/
inductive Call where
  | fetchCsv (url : String)
  | createOrder (body : ChildOrder)
  | cancelOrder (id : String)
deriving DecidableEq

/-- The HTTP outcome of one `/process-csv-orders` request. `skip` is the
HTTP 200 text response "No CSV file in note — skipping"; `ok` is the HTTP 200
JSON body with its message and results; `err500` is the HTTP 500 JSON body
with a generic error message; `hang` means the promise returned by `fetchCsv`
never settles, so no response is ever sent. -/
inductive Outcome where
  | skip
  | ok (message : String) (results : List ResultRecord)
  | err500
  | hang
deriving DecidableEq

/-- The result record for the n-th row, from the try/catch around the
creation call in src/index.js lines 127 to 149. -/
def mkResult (create : Nat → Except String String) (i : Nat) (row : Row) : ResultRecord :=
  match create i with
  | Except.ok nm => ResultRecord.success nm (List.lookup "address1" row)
  | Except.error msg => ResultRecord.failure msg row

/-- The `for (const row of rows)` loop: push one result per row, in order. -/
def rowLoop (create : Nat → Except String String) (rows : List Row) : List ResultRecord :=
  (rows.foldl (fun acc row => (acc.1 ++ [mkResult create acc.2 row], acc.2 + 1)) ([], 0)).1

/-- The calls-only filter of the trace: order-creation calls. -/
def createCalls (t : List Call) : List Call :=
  t.filter (fun c => match c with | Call.createOrder _ => true | _ => false)

/-- The calls-only filter of the trace: cancellation calls. -/
def cancelCalls (t : List Call) : List Call :=
  t.filter (fun c => match c with | Call.cancelOrder _ => true | _ => false)

/-- The whole `/process-csv-orders` handler of src/index.js lines 57 to 173,
returning the HTTP outcome and the trace of outbound calls in order.
The remote status code is never inspected (the response body is piped into
csv-parser whatever the status), a connection error is unhandled (the promise
never settles), a parse error rejects the promise and is caught by the outer
try/catch, the creation loop catches per-row errors, and the cancellation
call is wrapped in its own try/catch whose failure only logs. -/
def processCsvOrders (o : WebhookOrder) (up : Upstream) : Outcome × List Call :=
  match findCsvUrl (jsOrS o.note "") with
  | none => (Outcome.skip, [])
  | some url =>
    match up.event with
    | HttpsEvent.connectionError => (Outcome.hang, [Call.fetchCsv url])
    | HttpsEvent.response _ body =>
      match up.parseRows body with
      | Except.error _ => (Outcome.err500, [Call.fetchCsv url])
      | Except.ok rows =>
        (Outcome.ok "Orders processed and parent canceled" (rowLoop up.create rows),
         Call.fetchCsv url ::
           rows.map (fun row => Call.createOrder (newOrder o row)) ++
           [Call.cancelOrder (idStr o)])

/-! Concrete fixtures used by witness and counterexample theorems. -/

/-- A concrete webhook order whose note carries one CSV URL. -/
def wOrder : WebhookOrder :=
  ⟨some 7, some "#1001", some "see https://a.csv ok", some [⟨some 5, some 2⟩]⟩

/-- A concrete CSV row with a two-token name. -/
def wRowA : Row := [("name", "Jane Doe"), ("email", "jane@x.com"), ("address1", "1 Main St")]

/-- A concrete CSV row with a one-token name and no email. -/
def wRowB : Row := [("name", "Bob")]

/-- A concrete csv-parser behaviour returning two rows. -/
def wParse : String → Except String (List Row) := fun _ => Except.ok [wRowA, wRowB]

/-- A concrete creation behaviour: first call succeeds, later calls fail. -/
def wCreate : Nat → Except String String :=
  fun i => if i = 0 then Except.ok "#C1" else Except.error "422"

/-- A concrete upstream where fetch and parse succeed. -/
def wUp : Upstream := ⟨HttpsEvent.response 200 "b", wParse, wCreate, Except.ok ()⟩

/-- A concrete order for the claim C3 counterexample. -/
def cexOrder3 : WebhookOrder := ⟨some 9, some "#2", some "https://a.csv", some []⟩

/-- A concrete upstream for the claim C3 counterexample: the remote answers
with HTTP status 404 and a body that csv-parser happily parses as one row. -/
def cexUp3 : Upstream :=
  ⟨HttpsEvent.response 404 "x\ny", fun _ => Except.ok [[("x", "y")]],
   fun _ => Except.ok "#K1", Except.ok ()⟩

/-- A concrete order for the claim C5 counterexample: one line item with
quantity zero and one with no quantity at all. -/
def cexOrder5 : WebhookOrder :=
  ⟨some 3, some "#9", some "https://a.csv", some [⟨some 5, some 0⟩, ⟨some 6, none⟩]⟩

/-- Variant and quantity pairs of a child order request, the quantity kept
as an optional value for comparison with the inbound payload. -/
def itemPairs (l : List LineItemOut) : List (Option Int × Option Int) :=
  l.map (fun it => (it.variant_id, some it.quantity))

/-- The line items as claim C5 states them: variant identifier and quantity
exactly as in the inbound order payload. -/
def claimedPairsC5 (o : WebhookOrder) : List (Option Int × Option Int) :=
  (o.line_items.getD []).map (fun it => (it.variant_id, it.quantity))

/-- The customer record as claim C6 states it: the name field defaults to
"Gift Recipient" only when absent, the split is on single spaces, the first
token is the first name, the remaining tokens joined by spaces are the last
name defaulting to "Recipient" only when no token remains, and the email
defaults only when the row has none. -/
def claimedCustomerC6 (row : Row) : Customer :=
  let full : String :=
    match List.lookup "name" row with
    | none => "Gift Recipient"
    | some s => s
  let parts := splitOnSpace full.data
  let rest := parts.tail
  ⟨String.mk (parts.headD []),
   if rest = [] then "Recipient" else String.intercalate " " (rest.map String.mk),
   match List.lookup "email" row with
   | none => "placeholder@example.com"
   | some s => s⟩

/-- The customer record as the amended claim C6 states it: the name field
defaults to "Gift Recipient" when absent or empty, the split is on single
spaces, the first token is the first name, the remaining tokens joined by
spaces are the last name defaulting to "Recipient" when that joined remainder
is empty, and the email defaults to the placeholder when absent or empty. -/
def amendedCustomerC6 (row : Row) : Customer :=
  let full : String :=
    match List.lookup "name" row with
    | none => "Gift Recipient"
    | some s => if s = "" then "Gift Recipient" else s
  let parts := splitOnSpace full.data
  let joined := String.intercalate " " (parts.tail.map String.mk)
  ⟨String.mk (parts.headD []),
   if joined = "" then "Recipient" else joined,
   match List.lookup "email" row with
   | none => "placeholder@example.com"
   | some s => if s = "" then "placeholder@example.com" else s⟩

/-! The /generate-csv endpoint and a standard CSV decoder. -/

/-- A record of the /generate-csv body: a flat JSON object as an ordered list
of key and value pairs (JS object keys are unique and kept in insertion
order, which is what Object.keys iterates). -/
abbrev Record : Type := List (String × String)

/-- Double every double quote: the json2csv escape rule for quoted content. -/
def escapeQuotes : List Char → List Char
  | [] => []
  | c :: cs => if c = '"' then '"' :: '"' :: escapeQuotes cs else c :: escapeQuotes cs

/-- A quoted CSV cell: opening quote, escaped content, closing quote. -/
def qcell (s : List Char) : List Char := '"' :: escapeQuotes s ++ ['"']

/-- One serialized cell of a data row: json2csv emits a quoted string for a
string value and an empty cell for a missing key. -/
def encodeCellC : Option (List Char) → List Char
  | none => []
  | some s => qcell s

/-- One serialized data row against the fixed field list: json2csv looks each
field up in the record. -/
def encRow (fields : List String) (q : Record) : List Char :=
  joinSep ',' (fields.map (fun f => encodeCellC ((List.lookup f q).map String.data)))

/-- Modelled from the spec: the json2csv Parser of src/index.js lines 37 to 44
is an external library, so its serialization follows its documented defaults,
as the spec describes them: the column set is Object.keys of the first record
in iteration order, header cells and string values are quoted with double
quotes (inner quotes doubled), the delimiter is a comma and the end of line is
a line feed; a missing key emits an empty cell. -/
def encodeRecords (recs : List Record) : String :=
  match recs with
  | [] => ""
  | r :: _ =>
    String.mk (joinSep '\n'
      (joinSep ',' ((r.map Prod.fst).map (fun f => qcell f.data)) ::
        recs.map (encRow (r.map Prod.fst))))

/-- The body of a /generate-csv request: a JSON array of records, or any
non-array JSON value. -/
inductive GenBody where
  | arr (recs : List Record)
  | notArr

/-- The HTTP response of /generate-csv: the 400 plain-text rejection, or the
200 CSV attachment. -/
inductive GenResponse where
  | badRequest (msg : String)
  | csvOk (csv : String)
deriving DecidableEq

/-- The /generate-csv handler of src/index.js lines 28 to 49: reject a
non-array or empty body with HTTP 400 "Invalid data", otherwise serialize
against the keys of the first record. -/
def generateCsv : GenBody → GenResponse
  | GenBody.notArr => GenResponse.badRequest "Invalid data"
  | GenBody.arr [] => GenResponse.badRequest "Invalid data"
  | GenBody.arr (r :: rs) => GenResponse.csvOk (encodeRecords (r :: rs))

/-- Modelled from the spec: quoted cell content of a standard CSV decoder,
called after the opening quote; a doubled quote stands for one content quote
and a single quote closes the cell. Returns the content and what follows the
closing quote; fails on an unterminated cell. -/
def parseQuoted : List Char → Option (List Char × List Char)
  | [] => none
  | c :: cs =>
    if c = '"' then
      match cs with
      | c2 :: cs2 =>
        if c2 = '"' then (parseQuoted cs2).map (fun p => ('"' :: p.1, p.2))
        else some ([], cs)
      | [] => some ([], [])
    else (parseQuoted cs).map (fun p => (c :: p.1, p.2))

/-- Modelled from the spec: one cell of a standard CSV decoder, quoted when it
starts with a quote, otherwise the run up to the next comma or line feed. -/
def parseCell (cs : List Char) : Option (List Char × List Char) :=
  match cs with
  | c :: cs2 =>
    if c = '"' then parseQuoted cs2
    else some (cs.takeWhile (fun d => !(d == ',' || d == '\n')),
               cs.dropWhile (fun d => !(d == ',' || d == '\n')))
  | [] => some ([], [])

/-- Modelled from the spec: the cells of one line of a standard CSV decoder,
fuelled by the cell count; returns the cells and the input after the
terminating line feed (or the empty rest at the end of input). -/
def parseCellsF : Nat → List Char → Option (List (List Char) × List Char)
  | 0, _ => none
  | Nat.succ f, cs =>
    match parseCell cs with
    | none => none
    | some (cell, rest) =>
      match rest with
      | [] => some ([cell], [])
      | c :: r =>
        if c = ',' then
          match parseCellsF f r with
          | none => none
          | some (cells, r2) => some (cell :: cells, r2)
        else if c = '\n' then some ([cell], r)
        else none

/-- Modelled from the spec: the lines of a standard CSV decoder, fuelled by
the line count. -/
def parseLinesF : Nat → List Char → Option (List (List (List Char)))
  | 0, _ => none
  | Nat.succ f, cs =>
    match parseCellsF (cs.length + 1) cs with
    | none => none
    | some (cells, rest) =>
      match rest with
      | [] => some [cells]
      | c :: r =>
        match parseLinesF f (c :: r) with
        | none => none
        | some lines => some (cells :: lines)

/-- Modelled from the spec: a standard CSV decode (RFC 4180 style quoting,
line feed ends of line), returning the lines, each a list of cell strings. -/
def csvDecode (s : String) : Option (List (List String)) :=
  (parseLinesF (s.data.length + 1) s.data).map
    (fun lines => lines.map (fun l => l.map (fun c => String.mk c)))

/-- The character-level grid of a serialized record list: the header line of
key names followed by one line of values per record, used to state the
round-trip property. -/
def linesOf (r : Record) (rs : List Record) : List (List (List Char)) :=
  ((r.map Prod.fst).map String.data) ::
    (r :: rs).map (fun q => q.map (fun p => p.2.data))

/-! Lemmas about the URL matcher. -/

lemma take_split (l : List Char) (m n : Nat) :
    l.take (m + n) = l.take m ++ (l.drop m).take n := by
  induction l generalizing m with
  | nil => simp
  | cons a t ih =>
    cases m with
    | zero => simp
    | succ m => simp [Nat.succ_add, ih]

lemma greedyIdx_spec {run : List Char} {k : Nat} (h : greedyIdx run = some k) :
    1 ≤ k ∧ k < run.length ∧ (run.drop k).take 4 = csvLit := by
  have hp := List.find?_some h
  have hm := List.mem_of_find?_eq_some h
  rw [List.mem_reverse, List.mem_range] at hm
  rw [Bool.and_eq_true, decide_eq_true_iff, decide_eq_true_iff] at hp
  exact ⟨hp.1, hm, hp.2⟩

lemma tryMatchAt_sound {s m : List Char} (h : tryMatchAt s = some m) :
    matchesPat m ∧ m <+: s := by
  unfold tryMatchAt at h
  split at h
  case isFalse => exact absurd h (by simp)
  case isTrue hp =>
    split at h
    case h_2 => exact absurd h (by simp)
    case h_1 k hk =>
      injection h with h
      subst h
      obtain ⟨hk1, hklt, hkcsv⟩ := greedyIdx_spec hk
      have hpre : httpsLit <+: s := List.isPrefixOf_iff_prefix.mp hp
      obtain ⟨t, ht⟩ := hpre
      have hdrop : s.drop 8 = t := by
        rw [← ht]
        exact List.drop_left' (by rfl)
      constructor
      · refine ⟨(runOf s).take k, ?_, ?_, ?_⟩
        · intro hnil
          rcases List.take_eq_nil_iff.mp hnil with h0 | hrun
          · omega
          · rw [hrun] at hklt; simp at hklt
        · intro c hc
          have hcr : c ∈ runOf s := List.take_subset k (runOf s) hc
          have := List.mem_takeWhile_imp hcr
          simpa using this
        · rw [take_split (runOf s) k 4, hkcsv]
      · have hchain : (runOf s).take (k + 4) <+: s.drop 8 :=
          (List.take_prefix _ _).trans (List.takeWhile_prefix _)
        have hfull : httpsLit ++ (runOf s).take (k + 4) <+: httpsLit ++ s.drop 8 :=
          (List.prefix_append_right_inj httpsLit).mpr hchain
        rwa [hdrop, ht] at hfull

lemma findCsvUrlAux_sound : ∀ {s m : List Char},
    findCsvUrlAux s = some m → matchesPat m ∧ m <:+: s := by
  intro s
  induction s with
  | nil => intro m h; exact absurd h (by simp [findCsvUrlAux])
  | cons c cs ih =>
    intro m h
    rw [findCsvUrlAux] at h
    cases ht : tryMatchAt (c :: cs) with
    | some m2 =>
      rw [ht] at h
      injection h with h
      subst h
      obtain ⟨hpat, hpre⟩ := tryMatchAt_sound ht
      exact ⟨hpat, hpre.isInfix⟩
    | none =>
      rw [ht] at h
      obtain ⟨hpat, hinf⟩ := ih h
      exact ⟨hpat, List.infix_cons hinf⟩

lemma matchesPat_length {m : List Char} (h : matchesPat m) : 13 ≤ m.length := by
  obtain ⟨mid, hne, -, rfl⟩ := h
  have h1 : 1 ≤ mid.length := List.length_pos.mpr hne
  simp only [List.length_append, httpsLit, csvLit]
  simp
  omega

/-! Lemmas about the creation loop and the handler. -/

lemma rowLoop_go (create : Nat → Except String String) (rows : List Row) :
    ∀ (acc : List ResultRecord) (i : Nat),
      (rows.foldl (fun a row => (a.1 ++ [mkResult create a.2 row], a.2 + 1)) (acc, i)).1 =
        acc ++ (rows.enumFrom i).map (fun p => mkResult create p.1 p.2) := by
  induction rows with
  | nil => intro acc i; simp
  | cons r rs ih =>
    intro acc i
    rw [List.foldl_cons]
    have := ih (acc ++ [mkResult create i r]) (i + 1)
    simp only [List.enumFrom_cons, List.map_cons]
    simp at this ⊢
    rw [this]

lemma rowLoop_eq (create : Nat → Except String String) (rows : List Row) :
    rowLoop create rows = rows.enum.map (fun p => mkResult create p.1 p.2) := by
  unfold rowLoop
  rw [rowLoop_go]
  simp [List.enum_eq_enumFrom]

lemma processCsvOrders_run (o : WebhookOrder) (up : Upstream) (url : String) (st : Nat)
    (body : String) (rows : List Row)
    (h1 : findCsvUrl (jsOrS o.note "") = some url)
    (h2 : up.event = HttpsEvent.response st body)
    (h3 : up.parseRows body = Except.ok rows) :
    processCsvOrders o up =
      (Outcome.ok "Orders processed and parent canceled" (rowLoop up.create rows),
       Call.fetchCsv url :: rows.map (fun row => Call.createOrder (newOrder o row)) ++
         [Call.cancelOrder (idStr o)]) := by
  simp only [processCsvOrders, h1, h2, h3]

lemma createCalls_trace (o : WebhookOrder) (url : String) (rows : List Row) :
    createCalls (Call.fetchCsv url :: rows.map (fun row => Call.createOrder (newOrder o row)) ++
        [Call.cancelOrder (idStr o)]) =
      rows.map (fun row => Call.createOrder (newOrder o row)) := by
  simp [createCalls, List.filter_map, Function.comp_def]

lemma cancelCalls_trace (o : WebhookOrder) (url : String) (rows : List Row) :
    cancelCalls (Call.fetchCsv url :: rows.map (fun row => Call.createOrder (newOrder o row)) ++
        [Call.cancelOrder (idStr o)]) = [Call.cancelOrder (idStr o)] := by
  simp [cancelCalls, List.filter_map, Function.comp]

/-! Claim theorems for the order-split workflow. -/

/-- Claim C1: for every webhook order whose note yields a CSV URL match, when
the fetch delivers a response whose body parses into `rows`, the handler
issues exactly one order-creation call per decoded CSV row, in row order,
followed by exactly one cancellation call for the parent order, whatever the
outcomes of the creation calls are. -/
theorem claim1_one_create_per_row_then_cancel (o : WebhookOrder) (up : Upstream)
    (url : String) (st : Nat) (body : String) (rows : List Row)
    (h1 : findCsvUrl (jsOrS o.note "") = some url)
    (h2 : up.event = HttpsEvent.response st body)
    (h3 : up.parseRows body = Except.ok rows) :
    (processCsvOrders o up).2 =
      Call.fetchCsv url :: rows.map (fun row => Call.createOrder (newOrder o row)) ++
        [Call.cancelOrder (idStr o)] ∧
    createCalls (processCsvOrders o up).2 =
      rows.map (fun row => Call.createOrder (newOrder o row)) ∧
    cancelCalls (processCsvOrders o up).2 = [Call.cancelOrder (idStr o)] := by
  rw [processCsvOrders_run o up url st body rows h1 h2 h3]
  exact ⟨rfl, createCalls_trace o url rows, cancelCalls_trace o url rows⟩

/-- Witness for claim C1 at a concrete order, upstream and row list. -/
theorem claim1_witness :
    findCsvUrl (jsOrS wOrder.note "") = some "https://a.csv" ∧
    createCalls (processCsvOrders wOrder wUp).2 =
      [wRowA, wRowB].map (fun row => Call.createOrder (newOrder wOrder row)) ∧
    cancelCalls (processCsvOrders wOrder wUp).2 = [Call.cancelOrder (idStr wOrder)] :=
  ⟨by decide,
   (claim1_one_create_per_row_then_cancel wOrder wUp "https://a.csv" 200 "b"
      [wRowA, wRowB] (by decide) rfl rfl).2.1,
   (claim1_one_create_per_row_then_cancel wOrder wUp "https://a.csv" 200 "b"
      [wRowA, wRowB] (by decide) rfl rfl).2.2⟩

/-- Claim C2: for every run reaching the per-row loop, the response carries
exactly one result record per decoded CSV row, in row order: the record of
row `i` is the success or failure record determined by the i-th creation
outcome, and the result list has the same length as the row list. -/
theorem claim2_one_result_per_row (o : WebhookOrder) (up : Upstream)
    (url : String) (st : Nat) (body : String) (rows : List Row)
    (h1 : findCsvUrl (jsOrS o.note "") = some url)
    (h2 : up.event = HttpsEvent.response st body)
    (h3 : up.parseRows body = Except.ok rows) :
    (processCsvOrders o up).1 =
      Outcome.ok "Orders processed and parent canceled"
        (rows.enum.map (fun p => mkResult up.create p.1 p.2)) ∧
    (rows.enum.map (fun p => mkResult up.create p.1 p.2)).length = rows.length := by
  rw [processCsvOrders_run o up url st body rows h1 h2 h3]
  refine ⟨?_, ?_⟩
  · rw [rowLoop_eq]
  · simp [List.enum_eq_enumFrom]

/-- Witness for claim C2 at a concrete order, upstream and row list. -/
theorem claim2_witness :
    findCsvUrl (jsOrS wOrder.note "") = some "https://a.csv" ∧
    (processCsvOrders wOrder wUp).1 =
      Outcome.ok "Orders processed and parent canceled"
        ([wRowA, wRowB].enum.map (fun p => mkResult wUp.create p.1 p.2)) ∧
    ([wRowA, wRowB].enum.map (fun p => mkResult wUp.create p.1 p.2)).length =
      [wRowA, wRowB].length :=
  ⟨by decide,
   (claim2_one_result_per_row wOrder wUp "https://a.csv" 200 "b"
      [wRowA, wRowB] (by decide) rfl rfl).1,
   (claim2_one_result_per_row wOrder wUp "https://a.csv" 200 "b"
      [wRowA, wRowB] (by decide) rfl rfl).2⟩

/-- Claim C3 counterexample: the claim says that a remote HTTP error makes the
whole request fail with HTTP 500 and zero creation and cancellation calls.
In the code the status code of the response is never inspected: here the
remote answers 404, its body parses as one CSV row, and the handler answers
200 with one creation call and one cancellation call. -/
theorem claim3_counterexample :
    (processCsvOrders cexOrder3 cexUp3).1 ≠ Outcome.err500 ∧
    createCalls (processCsvOrders cexOrder3 cexUp3).2 ≠ [] ∧
    cancelCalls (processCsvOrders cexOrder3 cexUp3).2 ≠ [] := by
  refine ⟨?_, ?_, ?_⟩ <;> decide

/-- Claim C3 (amended): when the note yields a CSV URL, (a) a connection
failure is not handled: the promise never settles and no response is sent,
only the fetch call having occurred; (b) if csv-parser emits a parse error
the request fails atomically with the HTTP 500 generic error, the fetch being
the only outbound call, so zero creation and zero cancellation calls; and
(c) the HTTP status of the remote response is ignored: any two statuses with
the same body produce identical behaviour. -/
theorem claim3_fetch_failure_amended (o : WebhookOrder)
    (ps : String → Except String (List Row)) (cr : Nat → Except String String)
    (cz : Except String Unit) (url : String)
    (h1 : findCsvUrl (jsOrS o.note "") = some url) :
    (processCsvOrders o ⟨HttpsEvent.connectionError, ps, cr, cz⟩ =
        (Outcome.hang, [Call.fetchCsv url])) ∧
    (∀ st body e, ps body = Except.error e →
        processCsvOrders o ⟨HttpsEvent.response st body, ps, cr, cz⟩ =
            (Outcome.err500, [Call.fetchCsv url]) ∧
          createCalls [Call.fetchCsv url] = [] ∧
          cancelCalls [Call.fetchCsv url] = []) ∧
    (∀ st st2 body, processCsvOrders o ⟨HttpsEvent.response st body, ps, cr, cz⟩ =
        processCsvOrders o ⟨HttpsEvent.response st2 body, ps, cr, cz⟩) := by
  refine ⟨?_, ?_, ?_⟩
  · simp only [processCsvOrders, h1]
  · intro st body e he
    refine ⟨?_, rfl, rfl⟩
    simp only [processCsvOrders, h1, he]
  · intro st st2 body
    simp only [processCsvOrders, h1]

/-- Witness for the amended claim C3: a concrete parse error yields the 500
outcome with only the fetch in the trace. -/
theorem claim3_witness :
    findCsvUrl (jsOrS wOrder.note "") = some "https://a.csv" ∧
    processCsvOrders wOrder
        ⟨HttpsEvent.response 200 "bad", fun _ => Except.error "CSV parse error",
         wCreate, Except.ok ()⟩ =
      (Outcome.err500, [Call.fetchCsv "https://a.csv"]) :=
  ⟨by decide,
   ((claim3_fetch_failure_amended wOrder (fun _ => Except.error "CSV parse error")
      wCreate (Except.ok ()) "https://a.csv" (by decide)).2.1 200 "bad"
      "CSV parse error" rfl).1⟩

/-- Claim C4: for every webhook order whose note has no substring matching
the pattern (an https URL of non-whitespace characters ending in .csv), the
handler answers with the skip response and performs no outbound call at all:
no CSV fetch, no creation, no cancellation. -/
theorem claim4_no_url_skips (o : WebhookOrder) (up : Upstream)
    (h : ¬ ∃ m, m <:+: (jsOrS o.note "").data ∧ matchesPat m) :
    processCsvOrders o up = (Outcome.skip, []) := by
  have hnone : findCsvUrl (jsOrS o.note "") = none := by
    cases ha : findCsvUrlAux (jsOrS o.note "").data with
    | none => simp [findCsvUrl, ha]
    | some l =>
      exact absurd ⟨l, (findCsvUrlAux_sound ha).2, (findCsvUrlAux_sound ha).1⟩ h
  simp only [processCsvOrders, hnone]

/-- Witness for claim C4 at a concrete note with no CSV URL. -/
theorem claim4_witness :
    processCsvOrders ⟨some 1, none, some "plain note", none⟩ wUp =
      (Outcome.skip, []) := by
  apply claim4_no_url_skips
  rintro ⟨m, hinf, hpat⟩
  have h13 := matchesPat_length hpat
  have hle := hinf.length_le
  have hlen : (jsOrS (WebhookOrder.note ⟨some 1, none, some "plain note", none⟩) "").data.length = 10 := by decide
  omega

/-- Claim C7: for every run that reaches the parent-cancellation step, the
outcome of the cancellation call has no effect on the HTTP response: the
caller receives the same 200 body with message and results whether the
cancellation fails or succeeds, and the cancellation is attempted exactly
once. -/
theorem claim7_cancel_failure_invisible (o : WebhookOrder) (ev : HttpsEvent)
    (ps : String → Except String (List Row)) (cr : Nat → Except String String)
    (cz czOther : Except String Unit) (url : String) (st : Nat) (body : String)
    (rows : List Row)
    (h1 : findCsvUrl (jsOrS o.note "") = some url)
    (h2 : ev = HttpsEvent.response st body)
    (h3 : ps body = Except.ok rows) :
    (processCsvOrders o ⟨ev, ps, cr, cz⟩).1 =
      (processCsvOrders o ⟨ev, ps, cr, czOther⟩).1 ∧
    (processCsvOrders o ⟨ev, ps, cr, cz⟩).1 =
      Outcome.ok "Orders processed and parent canceled" (rowLoop cr rows) ∧
    cancelCalls (processCsvOrders o ⟨ev, ps, cr, cz⟩).2 =
      [Call.cancelOrder (idStr o)] := by
  have e1 := processCsvOrders_run o ⟨ev, ps, cr, cz⟩ url st body rows h1 h2 h3
  have e2 := processCsvOrders_run o ⟨ev, ps, cr, czOther⟩ url st body rows h1 h2 h3
  rw [e1, e2]
  exact ⟨rfl, rfl, cancelCalls_trace o url rows⟩

/-- Witness for claim C7: a failing cancellation gives the same response as a
succeeding one at concrete inputs. -/
theorem claim7_witness :
    (processCsvOrders wOrder
        ⟨HttpsEvent.response 200 "b", wParse, wCreate, Except.error "403"⟩).1 =
      (processCsvOrders wOrder
        ⟨HttpsEvent.response 200 "b", wParse, wCreate, Except.ok ()⟩).1 ∧
    cancelCalls (processCsvOrders wOrder
        ⟨HttpsEvent.response 200 "b", wParse, wCreate, Except.error "403"⟩).2 =
      [Call.cancelOrder (idStr wOrder)] :=
  ⟨(claim7_cancel_failure_invisible wOrder (HttpsEvent.response 200 "b") wParse wCreate
      (Except.error "403") (Except.ok ()) "https://a.csv" 200 "b" [wRowA, wRowB]
      (by decide) rfl rfl).1,
   (claim7_cancel_failure_invisible wOrder (HttpsEvent.response 200 "b") wParse wCreate
      (Except.error "403") (Except.ok ()) "https://a.csv" 200 "b" [wRowA, wRowB]
      (by decide) rfl rfl).2.2⟩

/-- Claim C10: for every webhook payload whose note field is absent or null
(fields of a non-order payload all project to none), the handler raises no
error: the note is treated as the empty string, no CSV URL matches, and the
request completes with the HTTP 200 skip response and no outbound call. -/
theorem claim10_missing_note_skips (o : WebhookOrder) (up : Upstream)
    (h : o.note = none) :
    processCsvOrders o up = (Outcome.skip, []) := by
  unfold processCsvOrders
  rw [h]
  rfl

/-- Witness for claim C10 at a concrete payload with no note. -/
theorem claim10_witness :
    processCsvOrders ⟨some 2, none, none, none⟩ wUp = (Outcome.skip, []) :=
  claim10_missing_note_skips ⟨some 2, none, none, none⟩ wUp rfl

/-! Claim theorems for the child order construction. -/

lemma splitName_eq (full : String) :
    splitName full =
      (String.mk ((splitOnSpace full.data).headD []),
       (splitOnSpace full.data).tail.map String.mk) := by
  unfold splitName
  cases h : splitOnSpace full.data with
  | nil => simp
  | cons f rest => simp

/-- Claim C5 counterexample: the claim says the child order carries each
line item quantity exactly as in the inbound payload; the code replaces a
zero or missing quantity by 1 (JS `item.quantity || 1`). -/
theorem claim5_counterexample :
    itemPairs (newOrder cexOrder5 wRowA).line_items ≠ claimedPairsC5 cexOrder5 := by
  decide

/-- Claim C5 (amended): for every CSV row the synthesized child order carries
one line item per inbound line item with the variant identifier verbatim and
the quantity verbatim except that a missing or zero quantity becomes 1,
together with country fixed to "United States", financial status fixed to
"paid", and a tag recording provenance from the parent order name or
identifier. -/
theorem claim5_child_order_fields_amended (o : WebhookOrder) (row : Row) :
    (newOrder o row).line_items =
      (o.line_items.getD []).map (fun it => ⟨it.variant_id, jsOrZ it.quantity 1⟩) ∧
    (newOrder o row).shipping_address.country = "United States" ∧
    (newOrder o row).financial_status = "paid" ∧
    (newOrder o row).tags = "Created from CSV of order " ++ parentRef o := by
  refine ⟨?_, rfl, rfl, rfl⟩
  show lineItemsOut o = _
  unfold lineItemsOut
  cases o.line_items <;> simp

/-- Claim C6 counterexample: the claim defaults the name only when absent and
the last name only when no token remains after the first; the code also
defaults an empty name (JS falsiness) and a last name whose joined remainder
is empty, as the rows with name "" and name "Bob " show. -/
theorem claim6_counterexample :
    (newOrder wOrder [("name", ""), ("email", "")]).customer ≠
      claimedCustomerC6 [("name", ""), ("email", "")] ∧
    (newOrder wOrder [("name", "Bob ")]).customer ≠
      claimedCustomerC6 [("name", "Bob ")] := by
  refine ⟨?_, ?_⟩ <;> decide

/-- Claim C6 (amended): for every CSV row the customer is derived by taking
the row name field (defaulting to "Gift Recipient" when absent or empty),
splitting it on single spaces, using the first token as the first name and
the remaining tokens joined by spaces as the last name, the last name
defaulting to "Recipient" when that joined remainder is empty; the email
defaults to placeholder@example.com when absent or empty. Name "Jane Doe"
yields first name "Jane" and last name "Doe"; name "Bob" yields first name
"Bob" and last name "Recipient". -/
theorem claim6_name_split_amended (o : WebhookOrder) (row : Row) :
    (newOrder o row).customer = amendedCustomerC6 row ∧
    (newOrder o ([("name", "Jane Doe"), ("email", "jane@x.com")] : Row)).customer =
      ⟨"Jane", "Doe", "jane@x.com"⟩ ∧
    (newOrder o ([("name", "Bob")] : Row)).customer =
      ⟨"Bob", "Recipient", "placeholder@example.com"⟩ := by
  refine ⟨?_, rfl, rfl⟩
  simp only [newOrder, amendedCustomerC6, fullNameOf, splitName_eq]
  cases List.lookup "name" row <;> cases List.lookup "email" row <;> rfl

/-! Round-trip lemmas for the CSV codec. -/

lemma parseQuoted_round (s : List Char) : ∀ rest : List Char,
    (∀ c r, rest = c :: r → c ≠ '"') →
    parseQuoted (escapeQuotes s ++ '"' :: rest) = some (s, rest) := by
  induction s with
  | nil =>
    intro rest hrest
    cases rest with
    | nil => rfl
    | cons c2 r2 =>
      have hc2 : c2 ≠ '"' := hrest c2 r2 rfl
      simp [escapeQuotes, parseQuoted, hc2]
  | cons a as ih =>
    intro rest hrest
    by_cases ha : a = '"'
    · subst ha
      simp [escapeQuotes, parseQuoted, ih rest hrest]
    · have hstep := ih rest hrest
      rw [show escapeQuotes (a :: as) ++ '\"' :: rest =
            a :: (escapeQuotes as ++ '\"' :: rest) from by simp [escapeQuotes, ha]]
      conv_lhs => rw [parseQuoted.eq_def]
      simp [ha, hstep]

lemma parseCell_qcell (s : List Char) (rest : List Char)
    (hrest : ∀ c r, rest = c :: r → c ≠ '"') :
    parseCell (qcell s ++ rest) = some (s, rest) := by
  have hq : qcell s ++ rest = '"' :: (escapeQuotes s ++ '"' :: rest) := by
    simp [qcell]
  rw [hq]
  simp [parseCell, parseQuoted_round s rest hrest]

lemma length_le_joinSep (sep : Char) (items : List (List Char)) :
    items.length ≤ (joinSep sep items).length + 1 := by
  induction items with
  | nil => simp
  | cons x xs ih =>
    cases xs with
    | nil => simp [joinSep]
    | cons y ys =>
      rw [joinSep]
      simp only [List.length_cons, List.length_append] at ih ⊢
      omega

lemma joinSep_cons_ex (sep : Char) (x : List Char) (xs : List (List Char)) :
    ∃ t, joinSep sep (x :: xs) = x ++ t := by
  cases xs with
  | nil => exact ⟨[], by simp [joinSep]⟩
  | cons y ys => exact ⟨sep :: joinSep sep (y :: ys), rfl⟩

lemma parseCellsF_succ (f : Nat) (cs : List Char) :
    parseCellsF (f + 1) cs =
      match parseCell cs with
      | none => none
      | some (cell, rest) =>
        match rest with
        | [] => some ([cell], [])
        | c :: r =>
          if c = ',' then
            match parseCellsF f r with
            | none => none
            | some (cells, r2) => some (cell :: cells, r2)
          else if c = '\n' then some ([cell], r) else none := rfl

lemma parseLinesF_succ (f : Nat) (cs : List Char) :
    parseLinesF (f + 1) cs =
      match parseCellsF (cs.length + 1) cs with
      | none => none
      | some (cells, rest) =>
        match rest with
        | [] => some [cells]
        | c :: r =>
          match parseLinesF f (c :: r) with
          | none => none
          | some lines => some (cells :: lines) := rfl

lemma parseCellsF_round (cells : List (List Char)) : ∀ (f : Nat) (rest : List Char),
    cells ≠ [] → cells.length ≤ f →
    (rest = [] ∨ ∃ r, rest = '\n' :: r) →
    parseCellsF f (joinSep ',' (cells.map qcell) ++ rest) = some (cells, rest.tail) := by
  induction cells with
  | nil => intro f rest h hf hrest; exact absurd rfl h
  | cons c cs ih =>
    intro f rest hne hf hrest
    cases f with
    | zero => simp at hf
    | succ f =>
      have hr : ∀ d r2, rest = d :: r2 → d ≠ '"' := by
        rcases hrest with rfl | ⟨r, rfl⟩
        · intro d r2 h; cases h
        · intro d r2 h
          injection h with h1 h2
          subst h1
          decide
      cases cs with
      | nil =>
        have hj : joinSep ',' ([c].map qcell) ++ rest = qcell c ++ rest := by
          simp [joinSep]
        rw [hj]
        rw [parseCellsF_succ]
        rw [parseCell_qcell c rest hr]
        rcases hrest with rfl | ⟨r, rfl⟩
        · rfl
        · simp
      | cons c2 cs2 =>
        have hj : joinSep ',' ((c :: c2 :: cs2).map qcell) ++ rest =
            qcell c ++ (',' :: (joinSep ',' ((c2 :: cs2).map qcell) ++ rest)) := by
          simp [joinSep]
        rw [hj]
        have hr2 : ∀ d r2,
            (',' :: (joinSep ',' ((c2 :: cs2).map qcell) ++ rest)) = d :: r2 → d ≠ '"' := by
          intro d r2 h
          injection h with h1 h2
          subst h1
          decide
        rw [parseCellsF_succ]
        rw [parseCell_qcell c _ hr2]
        have hrec := ih f rest (by simp) (by simpa using hf) hrest
        simp only [List.map_cons] at hrec ⊢
        rw [hrec]
        simp

lemma parseLinesF_round (lines : List (List (List Char))) : ∀ (f : Nat),
    lines ≠ [] → (∀ l ∈ lines, l ≠ []) → lines.length ≤ f →
    parseLinesF f (joinSep '\n' (lines.map (fun l => joinSep ',' (l.map qcell)))) =
      some lines := by
  induction lines with
  | nil => intro f h _ _; exact absurd rfl h
  | cons l ls ih =>
    intro f hne hcells hf
    cases f with
    | zero => simp at hf
    | succ f =>
      have hl : l ≠ [] := hcells l (by simp)
      cases ls with
      | nil =>
        have hj : joinSep '\n' ([l].map (fun l => joinSep ',' (l.map qcell))) =
            joinSep ',' (l.map qcell) := by simp [joinSep]
        rw [hj]
        rw [parseLinesF_succ]
        have hc := parseCellsF_round l ((joinSep ',' (l.map qcell)).length + 1) []
          hl (by simpa using length_le_joinSep ',' (l.map qcell)) (Or.inl rfl)
        rw [List.append_nil] at hc
        simp only [List.tail_nil] at hc
        rw [hc]
      | cons l2 ls2 =>
        have hj : joinSep '\n' ((l :: l2 :: ls2).map (fun l => joinSep ',' (l.map qcell))) =
            joinSep ',' (l.map qcell) ++
              '\n' :: joinSep '\n' ((l2 :: ls2).map (fun l => joinSep ',' (l.map qcell))) := rfl
        rw [hj]
        rw [parseLinesF_succ]
        have hfuel : l.length ≤ (joinSep ',' (l.map qcell) ++
            '\n' :: joinSep '\n' ((l2 :: ls2).map (fun l => joinSep ',' (l.map qcell)))).length + 1 := by
          have hbase := length_le_joinSep ',' (l.map qcell)
          simp only [List.length_map] at hbase
          simp only [List.length_append, List.length_cons]
          omega
        have hc := parseCellsF_round l _ _ hl hfuel
          (Or.inr ⟨joinSep '\n' ((l2 :: ls2).map (fun l => joinSep ',' (l.map qcell))), rfl⟩)
        rw [hc]
        have hrec := ih f (by simp) (fun a ha => hcells a (List.mem_cons_of_mem l ha))
          (by simpa using hf)
        have hl2 : l2 ≠ [] := hcells l2 (by simp)
        obtain ⟨x, xs, rfl⟩ : ∃ x xs, l2 = x :: xs := by
          cases l2 with
          | nil => exact absurd rfl hl2
          | cons x xs => exact ⟨x, xs, rfl⟩
        obtain ⟨d, r, hdr⟩ : ∃ d r,
            joinSep '\n' (((x :: xs) :: ls2).map (fun l => joinSep ',' (l.map qcell))) =
              d :: r := by
          obtain ⟨t, ht⟩ := joinSep_cons_ex '\n' (joinSep ',' (qcell x :: xs.map qcell))
            (ls2.map (fun l => joinSep ',' (l.map qcell)))
          obtain ⟨t2, ht2⟩ := joinSep_cons_ex ',' (qcell x) (xs.map qcell)
          refine ⟨'"', escapeQuotes x ++ (['"'] ++ (t2 ++ t)), ?_⟩
          simp only [List.map_cons]
          rw [ht, ht2]
          simp [qcell]
        rw [hdr] at hrec ⊢
        simp only [List.tail_cons]
        rw [hrec]

lemma lookup_mem (q : Record) (hnd : (q.map Prod.fst).Nodup) :
    ∀ p ∈ q, List.lookup p.1 q = some p.2 := by
  induction q with
  | nil => intro p hp; cases hp
  | cons a t ih =>
    obtain ⟨k, v⟩ := a
    intro p hp
    simp only [List.map_cons, List.nodup_cons] at hnd
    rcases List.mem_cons.mp hp with rfl | hmem
    · simp [List.lookup]
    · have hp1 : (p.1 == k) = false := by
        rw [beq_eq_false_iff_ne]
        intro h
        exact hnd.1 (h ▸ List.mem_map_of_mem Prod.fst hmem)
      rw [show List.lookup p.1 ((k, v) :: t) = List.lookup p.1 t from by
        simp [List.lookup, hp1]]
      exact ih hnd.2 p hmem

lemma encRow_uniform (fields : List String) (q : Record)
    (hq : q.map Prod.fst = fields) (hnd : fields.Nodup) :
    encRow fields q = joinSep ',' ((q.map (fun p => p.2.data)).map qcell) := by
  subst hq
  unfold encRow
  congr 1
  simp only [List.map_map]
  apply List.map_congr_left
  intro p hp
  simp only [Function.comp_apply]
  rw [lookup_mem q hnd p hp]
  rfl

lemma mk_data (s : String) : String.mk s.data = s := rfl

lemma encodeRecords_lines (r : Record) (rs : List Record)
    (hnd : (r.map Prod.fst).Nodup)
    (huni : ∀ q ∈ rs, q.map Prod.fst = r.map Prod.fst) :
    encodeRecords (r :: rs) =
      String.mk (joinSep '\n' ((linesOf r rs).map (fun l => joinSep ',' (l.map qcell)))) := by
  have hqr : ∀ q ∈ r :: rs, q.map Prod.fst = r.map Prod.fst := by
    intro q hq
    rcases List.mem_cons.mp hq with rfl | hmem
    · rfl
    · exact huni q hmem
  have h2 : (r :: rs).map (encRow (r.map Prod.fst)) =
      ((r :: rs).map (fun q => q.map (fun p => p.2.data))).map
        (fun l => joinSep ',' (l.map qcell)) := by
    rw [List.map_map]
    apply List.map_congr_left
    intro q hq
    simp only [Function.comp_apply]
    exact encRow_uniform (r.map Prod.fst) q (hqr q hq) hnd
  have h1 : (r.map Prod.fst).map (fun f => qcell f.data) =
      ((r.map Prod.fst).map String.data).map qcell := by
    simp [List.map_map]
  rw [show encodeRecords (r :: rs) = String.mk (joinSep '\n'
      (joinSep ',' ((r.map Prod.fst).map (fun f => qcell f.data)) ::
        (r :: rs).map (encRow (r.map Prod.fst)))) from rfl]
  unfold linesOf
  congr 1
  rw [h1, h2]
  simp

lemma linesOf_nonempty (r : Record) (rs : List Record) (hne : r ≠ [])
    (huni : ∀ q ∈ rs, q.map Prod.fst = r.map Prod.fst) :
    ∀ l ∈ linesOf r rs, l ≠ [] := by
  intro l hl
  rcases List.mem_cons.mp hl with rfl | hmem
  · simp only [ne_eq, List.map_eq_nil_iff]
    exact hne
  · obtain ⟨q, hqmem, rfl⟩ := List.mem_map.mp hmem
    have hqf : q.map Prod.fst = r.map Prod.fst := by
      rcases List.mem_cons.mp hqmem with rfl | hmem2
      · rfl
      · exact huni q hmem2
    intro hnil
    apply hne
    have hq : q = [] := by simpa using hnil
    rw [hq] at hqf
    simpa using hqf.symm

/-- Claim C8: the /generate-csv operation on an empty sequence or a non-array
body always fails with the invalid-input HTTP 400 rejection and never
produces any CSV output. -/
theorem claim8_reject_empty_or_nonarray :
    generateCsv GenBody.notArr = GenResponse.badRequest "Invalid data" ∧
    generateCsv (GenBody.arr []) = GenResponse.badRequest "Invalid data" :=
  ⟨rfl, rfl⟩

/-- Claim C9: for every non-empty list of uniform-shaped records with a
non-empty duplicate-free key set, /generate-csv serializes them and a
standard CSV decode of the produced text recovers exactly the keys of the
first record, in iteration order, as the first line, followed by the field
values of every record in order. -/
theorem claim9_encode_then_decode (r : Record) (rs : List Record)
    (hne : r ≠ []) (hnd : (r.map Prod.fst).Nodup)
    (huni : ∀ q ∈ rs, q.map Prod.fst = r.map Prod.fst) :
    generateCsv (GenBody.arr (r :: rs)) = GenResponse.csvOk (encodeRecords (r :: rs)) ∧
    csvDecode (encodeRecords (r :: rs)) =
      some ((r.map Prod.fst) :: (r :: rs).map (fun q => q.map Prod.snd)) := by
  refine ⟨rfl, ?_⟩
  rw [encodeRecords_lines r rs hnd huni]
  unfold csvDecode
  have hfuel : (linesOf r rs).length ≤
      (joinSep '\n' ((linesOf r rs).map (fun l => joinSep ',' (l.map qcell)))).length + 1 := by
    have hj := length_le_joinSep '\n' ((linesOf r rs).map (fun l => joinSep ',' (l.map qcell)))
    simpa using hj
  have hd := parseLinesF_round (linesOf r rs)
    ((joinSep '\n' ((linesOf r rs).map (fun l => joinSep ',' (l.map qcell)))).length + 1)
    (by simp [linesOf]) (linesOf_nonempty r rs hne huni) hfuel
  rw [show (String.mk (joinSep '\n' ((linesOf r rs).map (fun l => joinSep ',' (l.map qcell))))).data =
      joinSep '\n' ((linesOf r rs).map (fun l => joinSep ',' (l.map qcell))) from rfl]
  rw [hd]
  simp [linesOf, List.map_map, Function.comp_def, mk_data]

/-- Witness for claim C9 at two concrete uniform records. -/
theorem claim9_witness :
    ([("a", "1"), ("b", "2")] : Record) ≠ [] ∧
    (([("a", "1"), ("b", "2")] : Record).map Prod.fst).Nodup ∧
    (∀ q ∈ ([[("a", "3"), ("b", "4")]] : List Record),
      q.map Prod.fst = ([("a", "1"), ("b", "2")] : Record).map Prod.fst) ∧
    csvDecode (encodeRecords [[("a", "1"), ("b", "2")], [("a", "3"), ("b", "4")]]) =
      some [["a", "b"], ["1", "2"], ["3", "4"]] := by
  refine ⟨by decide, by decide, by decide, ?_⟩
  exact ((claim9_encode_then_decode [("a", "1"), ("b", "2")] [[("a", "3"), ("b", "4")]]
    (by decide) (by decide) (by decide)).2).trans (by decide)
